import Mathlib

/-!
Verification development for the fpga-region-manager repository.

Shallow embedding of:
  - `src/unnamed/part_002` (fpga-region-interface.c): single-interface
    enable/disable/setup/get/put operations and the list-wide
    enable/disable/put/get_to_list operations;
  - `src/fpga-region-core.c`: the region `program` state machine
    (`fpga_region_core_program_fpga`) with its lock acquisition and
    rollback paths.

Modelling conventions:
  - C `int` results are Lean `Int` (0 = success, negative errno = failure).
  - A mutex is a `Bool` (`true` = locked); `mutex_trylock` on a locked
    mutex fails, modelled as a branch on that `Bool`.
  - Device refcounts (`get_device`/`put_device`) and module pinning are
    outside the model except where the source's control flow depends on
    `try_module_get` succeeding, modelled by a `moduleAlive : Bool` field.
  - The list-traversal functions additionally return the names of the
    members on which the per-member operation was actually invoked, in
    invocation order, so that traversal-order and abort-on-first-failure
    properties are statable.  This trace component is pure observation:
    the `Int` component is exactly the C return value.
-/

/-- errno EBUSY (16), returned negated by the C code. -/
def EBUSY : Int := 16

/-- errno ENODEV (19), returned negated by the C code. -/
def ENODEV : Int := 19

/-- errno EINVAL (22), used as a representative nonzero failure code. -/
def EINVAL : Int := 22

/-- Ops table of a fpga_region_interface (`struct fpga_region_interface_ops`
in `src/fpga-region-interface.h`): every hook is optional (a NULL function
pointer is `none`).  `enable_set` receives the enable flag and yields the
C return value; `of_setup` receives the found device-tree node handle and
yields the C return value; `remove` acts on the provider's private state
(`priv`), which is how its invocation is observable in the model. -/
structure InterfaceOps where
  enable_set : Option (Bool → Int)
  of_setup : Option (Nat → Int)
  remove : Option (Nat → Nat)

/-- A fpga_region_interface (`struct fpga_region_interface` in
`src/fpga-region-interface.h`): name, optional ops table, the exclusivity
mutex, the recorded image-info context (`info`, NULL = `none`, otherwise
an abstract handle), the provider's private state `priv`, and whether the
parent driver's module can be pinned (`try_module_get` succeeds). -/
structure Interface where
  name : String
  ops : Option InterfaceOps
  locked : Bool
  info : Option Nat
  priv : Nat
  moduleAlive : Bool

/-- Ops table of a legacy `struct fpga_bridge` (external Linux
fpga-bridge boundary): only the `enable_set` hook matters to this code. -/
structure BridgeOps where
  enable_set : Option (Bool → Int)

/-- A legacy `struct fpga_bridge` (external Linux fpga-bridge boundary):
the interface-list code stores these in the same list as region
interfaces and dispatches on the device class. -/
structure Bridge where
  name : String
  br_ops : Option BridgeOps
  locked : Bool
  info : Option Nat

/-- A member of a region's interface list.  The C code distinguishes the
two cases by `interface->dev.class == fpga_region_interface_class`; the
`iface` constructor is that class, `bridge` is any other class (treated
as a legacy fpga_bridge via the cast in the source). -/
inductive Entity where
  | iface (i : Interface)
  | bridge (b : Bridge)

/-- Name of a list member (used for the invocation traces). -/
def entityName : Entity → String
  | .iface i => i.name
  | .bridge b => b.name

/-- Lock state of a list member. -/
def entityLocked : Entity → Bool
  | .iface i => i.locked
  | .bridge b => b.locked

/-- Recorded image-info context of a list member. -/
def entityInfo : Entity → Option Nat
  | .iface i => i.info
  | .bridge b => b.info

/-- External Linux fpga-bridge boundary: `fpga_bridge_enable`.  Invokes
the bridge's `enable_set` hook with `true` when present, else returns 0. -/
def fpga_bridge_enable (b : Bridge) : Int :=
  match b.br_ops with
  | some ops =>
    match ops.enable_set with
    | some f => f true
    | none => 0
  | none => 0

/-- External Linux fpga-bridge boundary: `fpga_bridge_disable`.  Invokes
the bridge's `enable_set` hook with `false` when present, else returns 0. -/
def fpga_bridge_disable (b : Bridge) : Int :=
  match b.br_ops with
  | some ops =>
    match ops.enable_set with
    | some f => f false
    | none => 0
  | none => 0

/-- External Linux fpga-bridge boundary: `fpga_bridge_put`.  Clears the
recorded info and releases the bridge's mutex. -/
def fpga_bridge_put (b : Bridge) : Bridge :=
  { b with info := none, locked := false }

/-- Embedding of `fpga_region_interface_enable` (part_002 lines 31-43): a member whose
device class is not the region-interface class is handed to
`fpga_bridge_enable`; otherwise the interface's `enable_set` hook is
invoked with 1 when `ops` and the hook are present, else 0. -/
def fpga_region_interface_enable : Entity → Int
  | .bridge b => fpga_bridge_enable b
  | .iface i =>
    match i.ops with
    | some ops =>
      match ops.enable_set with
      | some f => f true
      | none => 0
    | none => 0

/-- Embedding of `fpga_region_interface_disable` (part_002 lines 52-64): like enable
but the hook is invoked with 0 (false). -/
def fpga_region_interface_disable : Entity → Int
  | .bridge b => fpga_bridge_disable b
  | .iface i =>
    match i.ops with
    | some ops =>
      match ops.enable_set with
      | some f => f false
      | none => 0
    | none => 0

/-- Embedding of `fpga_region_interface_of_setup` (part_002 lines 74-93).  The
device-tree lookup `of_find_node_by_name` is an external read-only
boundary, passed in as `find : node handle → name → Option (node handle)`.
Returns the C return value paired with whether the `of_setup` hook was
invoked.  A non-region-interface member returns 0 at the class check; a
region interface invokes the hook exactly when `ops` and `ops.of_setup`
are present and `find` yields a node for the interface's name. -/
def fpga_region_interface_of_setup (find : Nat → String → Option Nat)
    (e : Entity) (np : Nat) : Int × Bool :=
  match e with
  | .bridge _ => (0, false)
  | .iface i =>
    match i.ops with
    | some ops =>
      match ops.of_setup with
      | some hook =>
        match find np i.name with
        | some node => (hook node, true)
        | none => (0, false)
      | none => (0, false)
    | none => (0, false)

/-- Result of `__fpga_region_interface_get`: the post-state of the
interface object and the error (`none` = success, caller holds the
exclusive reference). -/
structure GetResult where
  iface : Interface
  err : Option Int

/-- Embedding of `__fpga_region_interface_get` (part_002 lines 95-123).  The source
assigns `interface->info = info` BEFORE `mutex_trylock`, so the recorded
context is overwritten even when the acquisition then fails with -EBUSY.
When the trylock succeeds but `try_module_get` fails, the mutex is
unlocked again and -ENODEV is returned (net lock state unchanged). -/
def __fpga_region_interface_get (i : Interface) (info : Nat) : GetResult :=
  let i := { i with info := some info }
  if i.locked then ⟨i, some (-EBUSY)⟩
  else if i.moduleAlive then ⟨{ i with locked := true }, none⟩
  else ⟨i, some (-ENODEV)⟩

/-- Embedding of `fpga_region_interface_put` (part_002 lines 183-192): clears the
recorded info (`interface->info = NULL`), drops the module pin and device
reference, and unlocks the mutex.  It invokes no ops hook, so `priv` is
untouched. -/
def fpga_region_interface_put (i : Interface) : Interface :=
  { i with info := none, locked := false }

/-- Embedding of `fpga_region_interface_unregister` (part_002 lines 556-567): invokes
the provider's `remove` hook when `ops` and the hook are present (its
effect modelled on `priv`), then unregisters the device. -/
def fpga_region_interface_unregister (i : Interface) : Interface :=
  match i.ops with
  | some ops =>
    match ops.remove with
    | some f => { i with priv := f i.priv }
    | none => i
  | none => i

/-- Common shape of the list traversal loops in part_002
(`list_for_each_entry` with abort on first nonzero return): applies `op`
to each member in the given visit order, stops at the first failure
returning its code, returns 0 when all succeed.  The second component is
the trace of names on which `op` was invoked, in invocation order. -/
def interfacesForEach (op : Entity → Int) : List Entity → Int × List String
  | [] => (0, [])
  | e :: rest =>
    let r := op e
    if r = 0 then
      let p := interfacesForEach op rest
      (p.1, entityName e :: p.2)
    else (r, [entityName e])

/-- Embedding of `fpga_region_interfaces_enable` (part_002 lines 202-215): enables
each member head→tail (`list_for_each_entry`), aborting on the first
failure. -/
def fpga_region_interfaces_enable (interface_list : List Entity) :
    Int × List String :=
  interfacesForEach fpga_region_interface_enable interface_list

/-- Embedding of `fpga_region_interfaces_disable` (part_002 lines 226-239): disables
each member tail→head (`list_for_each_entry_reverse`), aborting on the
first failure.  The Lean list holds the C list head→tail, so the reverse
traversal is the forward loop over `List.reverse`. -/
def fpga_region_interfaces_disable (interface_list : List Entity) :
    Int × List String :=
  interfacesForEach fpga_region_interface_disable interface_list.reverse

/-- Embedding of `fpga_region_interfaces_put` (part_002 lines 274-289): drains the
list head→tail, putting each member (region interfaces via
`fpga_region_interface_put`, legacy bridges via `fpga_bridge_put`) and
deleting it from the list.  Returns the remaining list (always empty)
and the post-states of the released members in release order. -/
def fpga_region_interfaces_put : List Entity → List Entity × List Entity
  | [] => ([], [])
  | e :: rest =>
    let released : Entity :=
      match e with
      | .iface i => .iface (fpga_region_interface_put i)
      | .bridge b => .bridge (fpga_bridge_put b)
    let p := fpga_region_interfaces_put rest
    (p.1, released :: p.2)

/-- Read-only view of the device registries that the `get` functions
consult (`class_find_device_by_of_node` over the region-interface class
and, at the external fpga-bridge boundary, over the bridge class):
`ifaceAt np` is the region interface registered at device-tree node
`np`, `bridgeAt np` the legacy bridge registered there. -/
structure DTEnv where
  ifaceAt : Nat → Option Interface
  bridgeAt : Nat → Option Bridge

/-- Embedding of `of_fpga_region_interface_get` (part_002 lines 135-147): looks the
node up in the region-interface class (-ENODEV when absent) and runs
`__fpga_region_interface_get` on the found interface. -/
def of_fpga_region_interface_get (env : DTEnv) (np : Nat) (info : Nat) :
    Except Int Interface :=
  match env.ifaceAt np with
  | none => .error (-ENODEV)
  | some dev =>
    let g := __fpga_region_interface_get dev info
    match g.err with
    | none => .ok g.iface
    | some e => .error e

/-- External Linux fpga-bridge boundary: `of_fpga_bridge_get`.  Looks the
node up in the bridge class (-ENODEV when absent); a held bridge fails
-EBUSY, otherwise the bridge is locked and records the info. -/
def of_fpga_bridge_get (env : DTEnv) (np : Nat) (info : Nat) :
    Except Int Bridge :=
  match env.bridgeAt np with
  | none => .error (-ENODEV)
  | some b =>
    if b.locked then .error (-EBUSY)
    else .ok { b with locked := true, info := some info }

/-- Embedding of `of_fpga_region_interface_get_to_list` (part_002 lines 302-327):
first attempts `of_fpga_region_interface_get`; on success the interface
is `list_add`ed (PREPENDED — `list_add` inserts at the list head) and 0
is returned.  On any interface-get error it attempts `of_fpga_bridge_get`
and, on success, prepends the bridge and returns 0.  When both fail it
returns `PTR_ERR(bridge)`, i.e. the error of the bridge attempt. -/
def of_fpga_region_interface_get_to_list (env : DTEnv) (np : Nat)
    (info : Nat) (interface_list : List Entity) : Int × List Entity :=
  match of_fpga_region_interface_get env np info with
  | .ok i => (0, .iface i :: interface_list)
  | .error _ =>
    match of_fpga_bridge_get env np info with
    | .ok b => (0, .bridge b :: interface_list)
    | .error e => (e, interface_list)

/-- State of a `struct fpga_region_core` (src/fpga-region-core.h)
together with the state of its bound manager's lock: the region's
exclusivity mutex, whether the parent driver module can be pinned, the
manager (programming engine) lock, and the region's interface list. -/
structure FpgaRegionCore where
  regionLocked : Bool
  moduleAlive : Bool
  mgrLocked : Bool
  interface_list : List Entity

/-- Per-call environment of `fpga_region_core_program_fpga`: the result
the external `fpga_mgr_load` call will report, and the region's optional
`get_interfaces` callback, which rebuilds the interface list from the
current one and returns (C return value, new list contents). -/
structure ProgramEnv where
  loadResult : Int
  get_interfaces : Option (List Entity → Int × List Entity)

/-- Embedding of `fpga_region_core_get` (fpga-region-core.c lines 45-64): trylock of
the region mutex fails -EBUSY on a locked region; then `try_module_get`
failure unlocks again and fails -ENODEV (net lock state unchanged);
otherwise the region is locked and returned. -/
def fpga_region_core_get (s : FpgaRegionCore) : Option Int × FpgaRegionCore :=
  if s.regionLocked then (some (-EBUSY), s)
  else if s.moduleAlive then (none, { s with regionLocked := true })
  else (some (-ENODEV), s)

/-- Embedding of `fpga_region_core_put` (fpga-region-core.c lines 71-80): drops the
module pin and device reference and unlocks the region mutex. -/
def fpga_region_core_put (s : FpgaRegionCore) : FpgaRegionCore :=
  { s with regionLocked := false }

/-- External fpga-mgr boundary: `fpga_mgr_lock` — a non-blocking
exclusive lock of the manager that fails -EBUSY when the manager is
already locked. -/
def fpga_mgr_lock (s : FpgaRegionCore) : Option Int × FpgaRegionCore :=
  if s.mgrLocked then (some (-EBUSY), s)
  else (none, { s with mgrLocked := true })

/-- External fpga-mgr boundary: `fpga_mgr_unlock`. -/
def fpga_mgr_unlock (s : FpgaRegionCore) : FpgaRegionCore :=
  { s with mgrLocked := false }

/-- The `err_put_br` / `err_unlock_mgr` / `err_put_region` unwind tail of
`fpga_region_core_program_fpga` starting at `err_put_br`
(fpga-region-core.c lines 149-155): the interface list is drained ONLY
when the region has a `get_interfaces` callback, then the manager is
unlocked and the region is put. -/
def err_put_br (env : ProgramEnv) (s : FpgaRegionCore) : FpgaRegionCore :=
  let s :=
    if env.get_interfaces.isSome then
      { s with interface_list := (fpga_region_interfaces_put s.interface_list).1 }
    else s
  fpga_region_core_put (fpga_mgr_unlock s)

/-- Embedding of `fpga_region_core_program_fpga` (fpga-region-core.c lines 96-158):
get the region exclusively, lock the manager, run the optional
`get_interfaces` callback, disable the interface list, load the image,
re-enable the interface list, then unlock manager and region leaving the
list untouched.  Each failure returns through the corresponding `goto`
unwind label. -/
def fpga_region_core_program_fpga (env : ProgramEnv) (s0 : FpgaRegionCore) :
    Int × FpgaRegionCore :=
  match fpga_region_core_get s0 with
  | (some err, s1) => (err, s1)
  | (none, s1) =>
    match fpga_mgr_lock s1 with
    | (some err, s2) => (err, fpga_region_core_put s2)
    | (none, s2) =>
      let r : Int × FpgaRegionCore :=
        match env.get_interfaces with
        | none => (0, s2)
        | some f =>
          let p := f s2.interface_list
          (p.1, { s2 with interface_list := p.2 })
      let s3 := r.2
      if r.1 ≠ 0 then (r.1, fpga_region_core_put (fpga_mgr_unlock s3))
      else
        let retD := (fpga_region_interfaces_disable s3.interface_list).1
        if retD ≠ 0 then (retD, err_put_br env s3)
        else if env.loadResult ≠ 0 then (env.loadResult, err_put_br env s3)
        else
          let retE := (fpga_region_interfaces_enable s3.interface_list).1
          if retE ≠ 0 then (retE, err_put_br env s3)
          else (0, fpga_region_core_put (fpga_mgr_unlock s3))

/-- Concrete free interface named "A" (no ops), registered demo input. -/
def ifaceA : Interface := ⟨"A", none, false, none, 0, true⟩

/-- Concrete free interface named "B" (no ops), registered demo input. -/
def ifaceB : Interface := ⟨"B", none, false, none, 0, true⟩

/-- Registry with `ifaceA` at node 0 and `ifaceB` at node 1, no bridges. -/
def envAB : DTEnv :=
  ⟨fun np => if np = 0 then some ifaceA else if np = 1 then some ifaceB else none,
   fun _ => none⟩

/-- Interface list after acquiring node 0 (interface "A") first. -/
def listA : List Entity := (of_fpga_region_interface_get_to_list envAB 0 9 []).2

/-- Interface list after then acquiring node 1 (interface "B") second. -/
def listBA : List Entity := (of_fpga_region_interface_get_to_list envAB 1 9 listA).2

/-- Concrete interface already held with recorded context 1. -/
def ifaceHeld : Interface := ⟨"H", none, true, some 1, 0, true⟩

/-- Ops table whose only hook is a `remove` hook that increments `priv`. -/
def opsRC : InterfaceOps := ⟨none, none, some (fun p => p + 1)⟩

/-- Concrete held interface whose provider defines a `remove` hook. -/
def ifaceRC : Interface := ⟨"R", some opsRC, true, some 3, 0, true⟩

/-- Concrete free interface whose provider defines a `remove` hook. -/
def ifaceFree : Interface := ⟨"F", some opsRC, false, none, 5, true⟩

/-- List member: a held interface named "A" with recorded context 7. -/
def entHeld : Entity := .iface ⟨"A", none, true, some 7, 0, true⟩

/-- List member: a held interface named "B" with recorded context 9. -/
def entHeldB : Entity := .iface ⟨"B", none, true, some 9, 0, true⟩

/-- Region with a static pre-populated interface list (no `get_interfaces`). -/
def s_static : FpgaRegionCore := ⟨false, true, false, [entHeld]⟩

/-- Idle region: both locks free, empty interface list. -/
def sIdle : FpgaRegionCore := ⟨false, true, false, []⟩

/-- Region whose exclusivity mutex is already held by a program call. -/
def sHeld : FpgaRegionCore := ⟨true, true, false, []⟩

/-- Program environment where the manager's load call fails. -/
def env_loadFail : ProgramEnv := ⟨-EINVAL, none⟩

/-- Dynamic resolver that always succeeds with the single member `entHeldB`. -/
def resolveB : List Entity → Int × List Entity := fun _ => (0, [entHeldB])

/-- Dynamic region environment where the load call fails. -/
def env_dynLoadFail : ProgramEnv := ⟨-EINVAL, some resolveB⟩

/-- Dynamic region environment where everything succeeds. -/
def env_dynOk : ProgramEnv := ⟨0, some resolveB⟩

/-- List member whose enable/disable always succeed (legacy bridge, no ops). -/
def entG : Entity := .bridge ⟨"G", none, false, none⟩

/-- List member whose enable/disable always fail with -EINVAL. -/
def entBad : Entity := .iface ⟨"X", some ⟨some (fun _ => -EINVAL), none, none⟩, false, none, 0, true⟩

/-- Registry with the held interface at node 7 and no bridges anywhere. -/
def envBusy : DTEnv := ⟨fun np => if np = 7 then some ifaceHeld else none, fun _ => none⟩

/-- Device-tree lookup that finds node 3 for name "S" under node 5 only. -/
def findS : Nat → String → Option Nat :=
  fun np nm => if np = 5 ∧ nm = "S" then some 3 else none

/-- Ops table whose only hook is an `of_setup` hook returning node + 4. -/
def opsSetup : InterfaceOps := ⟨none, some (fun node => Int.ofNat node + 4), none⟩

/-- Interface named "S" with an `of_setup` hook. -/
def entSetup : Entity := .iface ⟨"S", some opsSetup, false, none, 0, true⟩

/-- Interface named "S" whose ops table defines no hook at all. -/
def entNoHook : Entity := .iface ⟨"S", some ⟨none, none, none⟩, false, none, 0, true⟩

/-- Projection of the spec's optional `topologySetup` capability out of a
list member: the (name, hook) pair when the member is a region interface
whose ops table defines `of_setup`, and `none` otherwise (legacy bridges
define no such hook). -/
def entitySetupHook : Entity → Option (String × (Nat → Int))
  | .iface i =>
    match i.ops with
    | some ops =>
      match ops.of_setup with
      | some hook => some (i.name, hook)
      | none => none
    | none => none
  | .bridge _ => none

/-- Projection of the spec's optional `enable` capability out of a list
member: the `enable_set` hook of a region interface's ops table, or of a
legacy bridge's ops table, when present. -/
def entityEnableSet : Entity → Option (Bool → Int)
  | .iface i =>
    match i.ops with
    | some ops => ops.enable_set
    | none => none
  | .bridge b =>
    match b.br_ops with
    | some ops => ops.enable_set
    | none => none

/-- C4: if a region's exclusivity lock is already held, a second
`fpga_region_core_program_fpga` call on the same region returns -EBUSY
immediately, leaving the region state (mutex, manager lock and
interface list) completely unchanged. -/
theorem C4_program_busy_unchanged (env : ProgramEnv) (s : FpgaRegionCore)
    (h : s.regionLocked = true) :
    fpga_region_core_program_fpga env s = (-EBUSY, s) := by
  simp [fpga_region_core_program_fpga, fpga_region_core_get, h]

/-- C4 witness: on a concrete region whose mutex is held, program
returns -EBUSY with the state unchanged. -/
theorem C4_program_busy_unchanged_witness :
    fpga_region_core_program_fpga env_loadFail sHeld = (-EBUSY, sHeld) :=
  C4_program_busy_unchanged env_loadFail sHeld rfl

/-- C5: code evaluation at the failing input.  An interface already held
with recorded context 1 is re-acquired with context 2: the call fails
-EBUSY as claimed, but — contrary to the claim — the interface's
recorded context has been overwritten to 2 by the assignment the source
performs before `mutex_trylock`. -/
theorem C5_busy_overwrites_context :
    ifaceHeld.locked = true ∧ ifaceHeld.info = some 1 ∧
    (__fpga_region_interface_get ifaceHeld 2).err = some (-EBUSY) ∧
    (__fpga_region_interface_get ifaceHeld 2).iface.info = some 2 ∧
    (__fpga_region_interface_get ifaceHeld 2).iface.locked = true :=
  ⟨rfl, rfl, rfl, rfl, rfl⟩

/-- C2: code evaluation at the failing input.  Acquiring interface "A"
(node 0) and then interface "B" (node 1) via
`of_fpga_region_interface_get_to_list` succeeds both times, but because
`list_add` prepends, `fpga_region_interfaces_enable` then visits B
before A — the REVERSE of acquisition order — and
`fpga_region_interfaces_disable` visits A before B, contradicting the
claim (and the repository Readme's documented tail insertion). -/
theorem C2_enable_order_inverted :
    (of_fpga_region_interface_get_to_list envAB 0 9 []).1 = 0 ∧
    (of_fpga_region_interface_get_to_list envAB 1 9 listA).1 = 0 ∧
    (fpga_region_interfaces_enable listBA).2 = ["B", "A"] ∧
    (fpga_region_interfaces_disable listBA).2 = ["A", "B"] :=
  ⟨rfl, rfl, rfl, rfl⟩

/-- C9: for every list member, `fpga_region_interface_enable` invokes
the provider's `enable_set` hook with true and returns its result when
the hook is present (through `fpga_bridge_enable` for legacy bridges),
and returns 0 when the ops table or the hook is absent;
`fpga_region_interface_disable` does the same with false. -/
theorem C9_enable_disable_hook (e : Entity) :
    fpga_region_interface_enable e =
      (match entityEnableSet e with
       | some f => f true
       | none => 0) ∧
    fpga_region_interface_disable e =
      (match entityEnableSet e with
       | some f => f false
       | none => 0) := by
  rcases e with ⟨nm, iops, lk, inf, pv, ma⟩ | ⟨nm, bops, lk, inf⟩
  · rcases iops with _ | ⟨es, osetup, rm⟩
    · exact ⟨rfl, rfl⟩
    · rcases es with _ | f <;> exact ⟨rfl, rfl⟩
  · rcases bops with _ | ⟨es⟩
    · exact ⟨rfl, rfl⟩
    · rcases es with _ | f <;> exact ⟨rfl, rfl⟩

/-- C10: `of_fpga_region_interface_get_to_list` first attempts the
region-interface acquisition: on success the interface is prepended and
0 returned; on ANY interface-get error it falls back to the legacy
bridge acquisition, prepending on success, and when both fail the
returned error is that of the bridge attempt (so the interface error,
e.g. -EBUSY, is discarded). -/
theorem C10_get_to_list_fallback :
    (∀ (env : DTEnv) (np info : Nat) (l : List Entity) (i : Interface),
        of_fpga_region_interface_get env np info = .ok i →
        of_fpga_region_interface_get_to_list env np info l = (0, .iface i :: l)) ∧
    (∀ (env : DTEnv) (np info : Nat) (l : List Entity) (e1 : Int),
        of_fpga_region_interface_get env np info = .error e1 →
        of_fpga_region_interface_get_to_list env np info l =
          (match of_fpga_bridge_get env np info with
           | .ok b => (0, .bridge b :: l)
           | .error e2 => (e2, l))) := by
  constructor
  · intro env np info l i h
    simp [of_fpga_region_interface_get_to_list, h]
  · intro env np info l e1 h
    simp [of_fpga_region_interface_get_to_list, h]

/-- C10 witness: at node 7 the interface attempt fails -EBUSY (held
interface) and there is no bridge, so get_to_list returns the bridge
attempt's -ENODEV, not -EBUSY, with the list unchanged. -/
theorem C10_get_to_list_fallback_witness :
    of_fpga_region_interface_get envBusy 7 1 = .error (-EBUSY) ∧
    of_fpga_region_interface_get_to_list envBusy 7 1 [] = (-ENODEV, []) := by
  refine ⟨rfl, ?_⟩
  exact C10_get_to_list_fallback.2 envBusy 7 1 [] (-EBUSY) rfl

/-- C8: `fpga_region_interface_of_setup` equals the dispatch on the
member's optional `of_setup` capability: when the member is a region
interface with an `of_setup` hook and the device-tree lookup finds a
node for the member's name, the hook is invoked on that node and its
result returned (invoked = true); in every other case (legacy bridge, no
ops table, no hook, or no matching node) the result is success 0 with no
invocation. -/
theorem C8_of_setup_dispatch (find : Nat → String → Option Nat)
    (e : Entity) (np : Nat) :
    fpga_region_interface_of_setup find e np =
      (match entitySetupHook e with
       | some (nm, hook) =>
         (match find np nm with
          | some node => (hook node, true)
          | none => (0, false))
       | none => (0, false)) := by
  rcases e with ⟨nm, iops, lk, inf, pv, ma⟩ | ⟨nm, bops, lk, inf⟩
  · rcases iops with _ | ⟨es, osetup, rm⟩
    · rfl
    · rcases osetup with _ | hook <;> rfl
  · rfl

/-- C7: counterexample to the claim as stated.  `ifaceRC` is a held
interface whose provider defines a `remove` hook that changes `priv`;
`fpga_region_interface_put` (the release paired with a successful
acquire) clears the context and unlocks, but leaves `priv` unchanged —
the hook, though defined, is NOT invoked at release time. -/
theorem C7_put_skips_remove_hook :
    (∃ ops, ifaceRC.ops = some ops ∧
      ∃ f, ops.remove = some f ∧ f ifaceRC.priv ≠ ifaceRC.priv) ∧
    (fpga_region_interface_put ifaceRC).priv = ifaceRC.priv ∧
    (fpga_region_interface_put ifaceRC).info = none ∧
    (fpga_region_interface_put ifaceRC).locked = false :=
  ⟨⟨opsRC, rfl, ⟨fun p => p + 1, rfl, by decide⟩⟩, rfl, rfl, rfl⟩

/-- C7 (amended): releasing an interface on which acquire succeeded
clears its recorded context and returns it to the free state without
invoking any provider hook (priv unchanged); the provider's `remove`
hook is instead invoked by `fpga_region_interface_unregister` when it is
defined. -/
theorem C7_release_clears_context :
    (∀ (i : Interface) (info : Nat),
      (__fpga_region_interface_get i info).err = none →
      fpga_region_interface_put (__fpga_region_interface_get i info).iface =
        { (__fpga_region_interface_get i info).iface with
            info := none, locked := false } ∧
      (fpga_region_interface_put (__fpga_region_interface_get i info).iface).priv
        = i.priv) ∧
    (∀ (j : Interface) (ops : InterfaceOps) (f : Nat → Nat),
      j.ops = some ops → ops.remove = some f →
      (fpga_region_interface_unregister j).priv = f j.priv) := by
  constructor
  · intro i info _
    refine ⟨rfl, ?_⟩
    simp only [__fpga_region_interface_get, fpga_region_interface_put]
    split_ifs <;> rfl
  · intro j ops f hops hf
    simp [fpga_region_interface_unregister, hops, hf]

/-- C7 witness: acquiring the free interface `ifaceFree` succeeds; its
release clears context, unlocks and leaves priv at 5, while unregister
runs the remove hook taking priv from 5 to 6. -/
theorem C7_release_clears_context_witness :
    fpga_region_interface_put (__fpga_region_interface_get ifaceFree 4).iface =
      { (__fpga_region_interface_get ifaceFree 4).iface with
          info := none, locked := false } ∧
    (fpga_region_interface_put (__fpga_region_interface_get ifaceFree 4).iface).priv = 5 ∧
    (fpga_region_interface_unregister ifaceFree).priv = 6 := by
  have h := C7_release_clears_context
  exact ⟨(h.1 ifaceFree 4 rfl).1, (h.1 ifaceFree 4 rfl).2,
    h.2 ifaceFree opsRC (fun p => p + 1) rfl rfl⟩

/-- Helper: a traversal whose members all succeed returns 0 and visits
every member in traversal order. -/
theorem interfacesForEach_all_ok (op : Entity → Int) :
    ∀ l : List Entity, (∀ e ∈ l, op e = 0) →
      interfacesForEach op l = (0, l.map entityName) := by
  intro l
  induction l with
  | nil => intro _; rfl
  | cons e rest ih =>
    intro h
    have he : op e = 0 := h e (List.mem_cons_self e rest)
    have hr := ih (fun x hx => h x (List.mem_cons_of_mem e hx))
    simp [interfacesForEach, he, hr]

/-- Helper: a traversal aborts at the first failing member, returning
that member's code, having visited exactly the preceding members and the
failing one. -/
theorem interfacesForEach_abort (op : Entity → Int) :
    ∀ (l1 : List Entity) (e : Entity) (l2 : List Entity),
      (∀ x ∈ l1, op x = 0) → op e ≠ 0 →
      interfacesForEach op (l1 ++ e :: l2) =
        (op e, l1.map entityName ++ [entityName e]) := by
  intro l1
  induction l1 with
  | nil =>
    intro e l2 _ hne
    simp [interfacesForEach, hne]
  | cons a l1 ih =>
    intro e l2 h hne
    have ha : op a = 0 := h a (List.mem_cons_self a l1)
    have hr := ih e l2 (fun x hx => h x (List.mem_cons_of_mem a hx)) hne
    simp [interfacesForEach, ha, hr]

/-- C6: `fpga_region_interfaces_enable` / `fpga_region_interfaces_disable`
return 0 having visited every member when all succeed (including the
empty list), and abort at the first failing member of their traversal —
head→tail for enable, tail→head for disable — returning that member's
error code, with no operation invoked on any later member of the
traversal. -/
theorem C6_abort_on_first_failure :
    (∀ l : List Entity, (∀ e ∈ l, fpga_region_interface_enable e = 0) →
        fpga_region_interfaces_enable l = (0, l.map entityName)) ∧
    (∀ l : List Entity, (∀ e ∈ l, fpga_region_interface_disable e = 0) →
        fpga_region_interfaces_disable l = (0, l.reverse.map entityName)) ∧
    (∀ (l1 : List Entity) (e : Entity) (l2 : List Entity),
        (∀ x ∈ l1, fpga_region_interface_enable x = 0) →
        fpga_region_interface_enable e ≠ 0 →
        fpga_region_interfaces_enable (l1 ++ e :: l2) =
          (fpga_region_interface_enable e,
           l1.map entityName ++ [entityName e])) ∧
    (∀ (l1 : List Entity) (e : Entity) (l2 : List Entity),
        (∀ x ∈ l2, fpga_region_interface_disable x = 0) →
        fpga_region_interface_disable e ≠ 0 →
        fpga_region_interfaces_disable (l1 ++ e :: l2) =
          (fpga_region_interface_disable e,
           l2.reverse.map entityName ++ [entityName e])) := by
  refine ⟨?_, ?_, ?_, ?_⟩
  · intro l h
    exact interfacesForEach_all_ok _ l h
  · intro l h
    unfold fpga_region_interfaces_disable
    exact interfacesForEach_all_ok _ l.reverse
      (fun e he => h e (List.mem_reverse.mp he))
  · intro l1 e l2 h hne
    exact interfacesForEach_abort _ l1 e l2 h hne
  · intro l1 e l2 h hne
    unfold fpga_region_interfaces_disable
    rw [show (l1 ++ e :: l2).reverse = l2.reverse ++ e :: l1.reverse by simp]
    exact interfacesForEach_abort _ l2.reverse e l1.reverse
      (fun x hx => h x (List.mem_reverse.mp hx)) hne

/-- C6 witness: on the concrete list [G, X, G] where X fails with
-EINVAL and G succeeds, enable visits G then X and returns -EINVAL
(never touching the final G); disable, traversing in reverse, does the
same from the other end; the empty list yields success. -/
theorem C6_abort_on_first_failure_witness :
    fpga_region_interfaces_enable [entG, entBad, entG] = (-EINVAL, ["G", "X"]) ∧
    fpga_region_interfaces_disable [entG, entBad, entG] = (-EINVAL, ["G", "X"]) ∧
    fpga_region_interfaces_enable [] = (0, []) := by
  have h1 := C6_abort_on_first_failure.2.2.1 [entG] entBad [entG]
    (by intro x hx; rw [List.mem_singleton] at hx; subst hx; rfl) (by decide)
  have h2 := C6_abort_on_first_failure.2.2.2 [entG] entBad [entG]
    (by intro x hx; rw [List.mem_singleton] at hx; subst hx; rfl) (by decide)
  have h3 := C6_abort_on_first_failure.1 [] (by intro x hx; cases hx)
  exact ⟨h1, h2, h3⟩

/-- Helper: draining a list leaves it empty. -/
theorem interfaces_put_drained (l : List Entity) :
    (fpga_region_interfaces_put l).1 = [] := by
  induction l with
  | nil => rfl
  | cons e rest ih => simp [fpga_region_interfaces_put, ih]

/-- Helper: every member drained by `fpga_region_interfaces_put` ends
unlocked with its recorded context cleared. -/
theorem interfaces_put_released (l : List Entity) :
    ∀ e ∈ (fpga_region_interfaces_put l).2,
      entityLocked e = false ∧ entityInfo e = none := by
  induction l with
  | nil => intro e he; cases he
  | cons a rest ih =>
    intro e he
    simp only [fpga_region_interfaces_put, List.mem_cons] at he
    rcases he with he | he
    · subst he
      rcases a with i | b
      · exact ⟨rfl, rfl⟩
      · exact ⟨rfl, rfl⟩
    · exact ih e he


/-- C1 (amended): starting from an idle region (mutex free, empty
list), every failing `fpga_region_core_program_fpga` call — engine
busy, resolution failure, disable failure, load failure, enable
failure, and also the region-get module failure — leaves the region
mutex free and the manager lock in its pre-call state; when the region
uses dynamic resolution (`get_interfaces` present, and the resolver
hands back no incomplete list on its own failure) the interface list ends
fully drained, and every member drained by `fpga_region_interfaces_put`
ends unlocked with its context cleared.  When `get_interfaces` is
absent, a failing call leaves the (pre-populated) list exactly as it
was — it is NOT released. -/
theorem C1_failure_rollback :
    (∀ (env : ProgramEnv) (s : FpgaRegionCore)
        (f : List Entity → Int × List Entity),
      s.regionLocked = false → s.interface_list = [] →
      env.get_interfaces = some f →
      (∀ (l : List Entity) (r : Int) (m : List Entity),
        f l = (r, m) → r ≠ 0 → m = []) →
      (fpga_region_core_program_fpga env s).1 ≠ 0 →
      (fpga_region_core_program_fpga env s).2.regionLocked = false ∧
      (fpga_region_core_program_fpga env s).2.mgrLocked = s.mgrLocked ∧
      (fpga_region_core_program_fpga env s).2.interface_list = []) ∧
    (∀ (env : ProgramEnv) (s : FpgaRegionCore),
      s.regionLocked = false → env.get_interfaces = none →
      (fpga_region_core_program_fpga env s).1 ≠ 0 →
      (fpga_region_core_program_fpga env s).2.regionLocked = false ∧
      (fpga_region_core_program_fpga env s).2.mgrLocked = s.mgrLocked ∧
      (fpga_region_core_program_fpga env s).2.interface_list = s.interface_list) ∧
    (∀ l : List Entity,
      (fpga_region_interfaces_put l).1 = [] ∧
      ∀ e ∈ (fpga_region_interfaces_put l).2,
        entityLocked e = false ∧ entityInfo e = none) := by
  refine ⟨?_, ?_, fun l => ⟨interfaces_put_drained l, interfaces_put_released l⟩⟩
  · intro env s f hRL hIL hGI hF hret
    cases hM : s.moduleAlive with
    | false =>
      simp [fpga_region_core_program_fpga, fpga_region_core_get, hRL, hM, hIL]
    | true =>
      cases hMgr : s.mgrLocked with
      | true =>
        simp [fpga_region_core_program_fpga, fpga_region_core_get,
          fpga_mgr_lock, fpga_region_core_put, hRL, hM, hMgr, hIL]
      | false =>
        rcases hp : f [] with ⟨r0, m⟩
        by_cases hr0 : r0 = 0
        · subst hr0
          by_cases hD : (fpga_region_interfaces_disable m).1 = 0
          · by_cases hL : env.loadResult = 0
            · by_cases hE : (fpga_region_interfaces_enable m).1 = 0
              · exfalso
                apply hret
                simp [fpga_region_core_program_fpga, fpga_region_core_get,
                  fpga_mgr_lock, fpga_region_core_put, fpga_mgr_unlock,
                  hRL, hM, hMgr, hGI, hIL, hp, hD, hL, hE]
              · simp [fpga_region_core_program_fpga, fpga_region_core_get,
                  fpga_mgr_lock, fpga_region_core_put, fpga_mgr_unlock,
                  err_put_br, hRL, hM, hMgr, hGI, hIL, hp, hD, hL, hE,
                  interfaces_put_drained]
            · simp [fpga_region_core_program_fpga, fpga_region_core_get,
                fpga_mgr_lock, fpga_region_core_put, fpga_mgr_unlock,
                err_put_br, hRL, hM, hMgr, hGI, hIL, hp, hD, hL,
                interfaces_put_drained]
          · simp [fpga_region_core_program_fpga, fpga_region_core_get,
              fpga_mgr_lock, fpga_region_core_put, fpga_mgr_unlock,
              err_put_br, hRL, hM, hMgr, hGI, hIL, hp, hD,
              interfaces_put_drained]
        · have hm : m = [] := hF [] r0 m hp hr0
          simp [fpga_region_core_program_fpga, fpga_region_core_get,
            fpga_mgr_lock, fpga_region_core_put, fpga_mgr_unlock,
            hRL, hM, hMgr, hGI, hIL, hp, hr0, hm]
  · intro env s hRL hGI hret
    cases hM : s.moduleAlive with
    | false =>
      simp [fpga_region_core_program_fpga, fpga_region_core_get, hRL, hM]
    | true =>
      cases hMgr : s.mgrLocked with
      | true =>
        simp [fpga_region_core_program_fpga, fpga_region_core_get,
          fpga_mgr_lock, fpga_region_core_put, hRL, hM, hMgr]
      | false =>
        by_cases hD : (fpga_region_interfaces_disable s.interface_list).1 = 0
        · by_cases hL : env.loadResult = 0
          · by_cases hE : (fpga_region_interfaces_enable s.interface_list).1 = 0
            · exfalso
              apply hret
              simp [fpga_region_core_program_fpga, fpga_region_core_get,
                fpga_mgr_lock, fpga_region_core_put, fpga_mgr_unlock,
                hRL, hM, hMgr, hGI, hD, hL, hE]
            · simp [fpga_region_core_program_fpga, fpga_region_core_get,
                fpga_mgr_lock, fpga_region_core_put, fpga_mgr_unlock,
                err_put_br, hRL, hM, hMgr, hGI, hD, hL, hE]
          · simp [fpga_region_core_program_fpga, fpga_region_core_get,
              fpga_mgr_lock, fpga_region_core_put, fpga_mgr_unlock,
              err_put_br, hRL, hM, hMgr, hGI, hD, hL]
        · simp [fpga_region_core_program_fpga, fpga_region_core_get,
            fpga_mgr_lock, fpga_region_core_put, fpga_mgr_unlock,
            err_put_br, hRL, hM, hMgr, hGI, hD]

/-- C1 witness: a concrete dynamic region whose load call fails ends
with the mutex free, the manager lock free (its pre-call state), and an
empty (fully drained) interface list. -/
theorem C1_failure_rollback_witness :
    (fpga_region_core_program_fpga env_dynLoadFail sIdle).1 = -EINVAL ∧
    (fpga_region_core_program_fpga env_dynLoadFail sIdle).2.regionLocked = false ∧
    (fpga_region_core_program_fpga env_dynLoadFail sIdle).2.mgrLocked = false ∧
    (fpga_region_core_program_fpga env_dynLoadFail sIdle).2.interface_list = [] := by
  have h := C1_failure_rollback.1 env_dynLoadFail sIdle resolveB rfl rfl rfl
    (by
      intro l r m hm hr
      simp only [resolveB, Prod.mk.injEq] at hm
      exact absurd hm.1.symm hr)
    (by decide)
  exact ⟨rfl, h.1, h.2.1, h.2.2⟩

/-- C1 counterexample to the claim as stated: a region WITHOUT dynamic
resolution whose pre-populated list holds one held interface fails its
load call; the error is returned but the interface list is NOT
released — the held member is still in the list, still locked. -/
theorem C1_static_list_not_released :
    (fpga_region_core_program_fpga env_loadFail s_static).1 = -EINVAL ∧
    (fpga_region_core_program_fpga env_loadFail s_static).2.interface_list
      = [entHeld] ∧
    entityLocked entHeld = true ∧
    entityInfo entHeld = some 7 :=
  ⟨rfl, rfl, rfl, rfl⟩

/-- C3: whenever `fpga_region_core_program_fpga` returns success, the
region mutex and the manager lock are both released, and the interface
list is exactly the post-resolution list — the success path performs no
release — so members that were held after resolution are still held. -/
theorem C3_success_keeps_interfaces (env : ProgramEnv) (s : FpgaRegionCore)
    (h : (fpga_region_core_program_fpga env s).1 = 0) :
    (fpga_region_core_program_fpga env s).2.regionLocked = false ∧
    (fpga_region_core_program_fpga env s).2.mgrLocked = false ∧
    (fpga_region_core_program_fpga env s).2.interface_list =
      (match env.get_interfaces with
       | some f => (f s.interface_list).2
       | none => s.interface_list) ∧
    ((∀ e ∈ (match env.get_interfaces with
              | some f => (f s.interface_list).2
              | none => s.interface_list), entityLocked e = true) →
      ∀ e ∈ (fpga_region_core_program_fpga env s).2.interface_list,
        entityLocked e = true) := by
  cases hRL : s.regionLocked with
  | true =>
    exfalso
    simp [fpga_region_core_program_fpga, fpga_region_core_get, hRL] at h
    exact absurd h (by decide)
  | false =>
    cases hM : s.moduleAlive with
    | false =>
      exfalso
      simp [fpga_region_core_program_fpga, fpga_region_core_get, hRL, hM] at h
      exact absurd h (by decide)
    | true =>
      cases hMgr : s.mgrLocked with
      | true =>
        exfalso
        simp [fpga_region_core_program_fpga, fpga_region_core_get,
          fpga_mgr_lock, fpga_region_core_put, hRL, hM, hMgr] at h
        exact absurd h (by decide)
      | false =>
        rcases hGI : env.get_interfaces with _ | f
        · by_cases hD : (fpga_region_interfaces_disable s.interface_list).1 = 0
          · by_cases hL : env.loadResult = 0
            · by_cases hE : (fpga_region_interfaces_enable s.interface_list).1 = 0
              · simp [fpga_region_core_program_fpga, fpga_region_core_get,
                  fpga_mgr_lock, fpga_region_core_put, fpga_mgr_unlock,
                  hRL, hM, hMgr, hGI, hD, hL, hE]
              · exfalso
                simp [fpga_region_core_program_fpga, fpga_region_core_get,
                  fpga_mgr_lock, fpga_region_core_put, fpga_mgr_unlock,
                  err_put_br, hRL, hM, hMgr, hGI, hD, hL, hE] at h
            · exfalso
              simp [fpga_region_core_program_fpga, fpga_region_core_get,
                fpga_mgr_lock, fpga_region_core_put, fpga_mgr_unlock,
                err_put_br, hRL, hM, hMgr, hGI, hD, hL] at h
          · exfalso
            simp [fpga_region_core_program_fpga, fpga_region_core_get,
              fpga_mgr_lock, fpga_region_core_put, fpga_mgr_unlock,
              err_put_br, hRL, hM, hMgr, hGI, hD] at h
        · rcases hp : f s.interface_list with ⟨r0, m⟩
          by_cases hr0 : r0 = 0
          · subst hr0
            by_cases hD : (fpga_region_interfaces_disable m).1 = 0
            · by_cases hL : env.loadResult = 0
              · by_cases hE : (fpga_region_interfaces_enable m).1 = 0
                · simp [fpga_region_core_program_fpga, fpga_region_core_get,
                    fpga_mgr_lock, fpga_region_core_put, fpga_mgr_unlock,
                    hRL, hM, hMgr, hGI, hp, hD, hL, hE]
                · exfalso
                  simp [fpga_region_core_program_fpga, fpga_region_core_get,
                    fpga_mgr_lock, fpga_region_core_put, fpga_mgr_unlock,
                    err_put_br, hRL, hM, hMgr, hGI, hp, hD, hL, hE] at h
              · exfalso
                simp [fpga_region_core_program_fpga, fpga_region_core_get,
                  fpga_mgr_lock, fpga_region_core_put, fpga_mgr_unlock,
                  err_put_br, hRL, hM, hMgr, hGI, hp, hD, hL] at h
            · exfalso
              simp [fpga_region_core_program_fpga, fpga_region_core_get,
                fpga_mgr_lock, fpga_region_core_put, fpga_mgr_unlock,
                err_put_br, hRL, hM, hMgr, hGI, hp, hD] at h
          · exfalso
            simp [fpga_region_core_program_fpga, fpga_region_core_get,
              fpga_mgr_lock, fpga_region_core_put, fpga_mgr_unlock,
              hRL, hM, hMgr, hGI, hp, hr0] at h

/-- C3 witness: a concrete successful dynamic program call ends with
both locks free and the resolved member still in the list and held. -/
theorem C3_success_keeps_interfaces_witness :
    (fpga_region_core_program_fpga env_dynOk sIdle).1 = 0 ∧
    (fpga_region_core_program_fpga env_dynOk sIdle).2.regionLocked = false ∧
    (fpga_region_core_program_fpga env_dynOk sIdle).2.mgrLocked = false ∧
    (fpga_region_core_program_fpga env_dynOk sIdle).2.interface_list = [entHeldB] ∧
    entityLocked entHeldB = true := by
  have h := C3_success_keeps_interfaces env_dynOk sIdle rfl
  exact ⟨rfl, h.1, h.2.1, h.2.2.1, rfl⟩
